import Mathlib

/-!
Verification of the night-walk canvas component
(`src/night-walk/src/components/night-walk-canvas.tsx`): the timed capture
state machine (`handleRecord`, its `ondataavailable` / `onstop` handlers and
the armed 10-second timeout) and the pure frame renderer (`renderFrame` and
the helper draw functions), shallowly embedded.

Numbers are modelled as exact rationals; `Math.sin`, `Math.cos` and
`Math.PI` are abstracted into a `MathModel` record, since the renderer only
ever applies them pointwise to values derived from its arguments.
-/

namespace NightWalk

/-- Truncation toward zero, as used by the JavaScript `%` operator. -/
def jsTrunc (q : ℚ) : ℤ := if q < 0 then ⌈q⌉ else ⌊q⌋

/-- The JavaScript remainder `a % b`, i.e. `a - b * trunc (a / b)`. -/
def jsMod (a b : ℚ) : ℚ := a - b * jsTrunc (a / b)

/-- `const CANVAS_WIDTH = 960` (line 7). -/
def CANVAS_WIDTH : ℚ := 960

/-- `const CANVAS_HEIGHT = 540` (line 8). -/
def CANVAS_HEIGHT : ℚ := 540

/-- `const WALK_CYCLE_MS = 1400` (line 9). -/
def WALK_CYCLE_MS : ℚ := 1400

/-! ## Capture controller (lines 49-185)

The component keeps: the React state `recorderState : 'idle' | 'recording'`
and `downloadUrl`, `message`; the refs `recorderRef` and
`pendingTimeoutRef`; and, per `handleRecord` invocation, a fresh `chunks`
array closed over by the `MediaRecorder` handlers.  We model every
`MediaRecorder` ever constructed as a `Session` (identified by a fresh id)
holding the encoder's own state, the closed-over chunk buffer (chunk sizes,
in arrival order) and a counter of `onstop` handler invocations.  Blobs and
object URLs are modelled by the minted url id together with the chunk list
it assembles; revocation is recorded in a `revoked` list. -/

/-- The `MediaRecorder` internal state (`'inactive' | 'recording'`). -/
inductive MRState
  | inactive
  | recording
deriving DecidableEq, Repr

/-- `type RecorderState = 'idle' | 'recording'` (line 5). -/
inductive RecorderState
  | idle
  | recording
deriving DecidableEq, Repr

/-- The distinct user-facing status messages set by the component. -/
inductive Msg
  | enjoy
  | unsupported
  | inProgress
  | noData
  | ready
  | failed
  | unavailable
deriving DecidableEq, Repr

/-- One `MediaRecorder` construction inside `handleRecord`, with the
`chunks` array its handlers close over (line 135) and a count of how many
times its `onstop` handler has run. -/
structure Session where
  sid : Nat
  rstate : MRState
  chunks : List Nat
  stopCount : Nat
deriving DecidableEq, Repr

/-- The component state visible to the capture controller. -/
structure Sys where
  sessions : List Session
  recorderRef : Option Nat
  recorderState : RecorderState
  pendingTimeout : Option Nat
  armed : List (Nat × Nat)
  nextSid : Nat
  nextHandle : Nat
  downloadUrl : Option Nat
  urls : List (Nat × List Nat)
  revoked : List Nat
  nextUrl : Nat
  message : Msg
deriving DecidableEq, Repr

/-- Initial component state (lines 52-57). -/
def initSys : Sys :=
  { sessions := []
    recorderRef := none
    recorderState := RecorderState.idle
    pendingTimeout := none
    armed := []
    nextSid := 0
    nextHandle := 0
    downloadUrl := none
    urls := []
    revoked := []
    nextUrl := 0
    message := Msg.enjoy }

/-- Look up the session with the given id. -/
def findS (l : List Session) (sid : Nat) : Option Session :=
  l.find? fun s => decide (s.sid = sid)

/-- Update the session with the given id in place. -/
def updS (l : List Session) (sid : Nat) (f : Session → Session) :
    List Session :=
  l.map fun s => if s.sid = sid then f s else s

/-- The encoder-side effect of `MediaRecorder.stop()` on a recording
session: the state flips to `inactive` and the `onstop` handler runs. -/
def stopS (s : Session) : Session :=
  { s with rstate := MRState.inactive, stopCount := s.stopCount + 1 }

/-- The `onstop` handler body (lines 156-168), acting on the component
state with the closed-over chunk list `cs`. -/
def onStop (sys : Sys) (cs : List Nat) : Sys :=
  if cs = [] then
    { sys with message := Msg.noData, recorderState := RecorderState.idle }
  else
    { sys with
        downloadUrl := some sys.nextUrl
        urls := (sys.nextUrl, cs) :: sys.urls
        nextUrl := sys.nextUrl + 1
        message := Msg.ready
        recorderState := RecorderState.idle }

/-- `recorder.stop()` on session `sid`: a no-op when the recorder is
already `inactive`; otherwise the recorder becomes inactive and its
`onstop` handler fires (synchronously in this model). -/
def stopRecorder (sys : Sys) (sid : Nat) : Sys :=
  match findS sys.sessions sid with
  | none => sys
  | some s =>
      if s.rstate = MRState.recording then
        onStop
          { sys with sessions := updS sys.sessions sid stopS } s.chunks
      else sys

/-- The `handleRecord` click handler (lines 120-185).  `supported` models
`'captureStream' in canvas`; `ctorOk` models whether the `MediaRecorder`
constructor succeeds (the `catch` branch fires when it does not). -/
def handleRecord (sys : Sys) (supported ctorOk : Bool) : Sys :=
  if supported = false then { sys with message := Msg.unsupported }
  else if sys.recorderState = RecorderState.recording then
    match sys.recorderRef with
    | some sid => stopRecorder sys sid
    | none => sys
  else if ctorOk = false then { sys with message := Msg.unavailable }
  else
    { sys with
        sessions :=
          sys.sessions ++
            [{ sid := sys.nextSid
               rstate := MRState.recording
               chunks := []
               stopCount := 0 }]
        recorderRef := some sys.nextSid
        recorderState := RecorderState.recording
        message := Msg.inProgress
        revoked :=
          match sys.downloadUrl with
          | some u => u :: sys.revoked
          | none => sys.revoked
        downloadUrl := none
        pendingTimeout := some sys.nextHandle
        armed := (sys.nextHandle, sys.nextSid) :: sys.armed
        nextSid := sys.nextSid + 1
        nextHandle := sys.nextHandle + 1 }

/-- Look up an armed timeout by its handle. -/
def armedLookup (sys : Sys) (h : Nat) : Option (Nat × Nat) :=
  sys.armed.find? fun p => decide (p.1 = h)

/-- First guard of the `useEffect([downloadUrl])` cleanup (lines 108-110):
stop the current recorder if it is still recording.  `stopRecorder` already
checks the recorder's own state, matching the
`recorderRef.current?.state === 'recording'` guard. -/
def cleanupStop (sys : Sys) : Sys :=
  match sys.recorderRef with
  | some sid => stopRecorder sys sid
  | none => sys

/-- Second guard of the cleanup (lines 111-113): if `pendingTimeoutRef`
holds a handle, `window.clearTimeout` it — the timer is disarmed (it will
never fire), but the ref itself is not nulled. -/
def cleanupTimer (sys : Sys) : Sys :=
  match sys.pendingTimeout with
  | some hdl =>
      { sys with armed := sys.armed.filter fun q => decide (q.1 ≠ hdl) }
  | none => sys

/-- Third guard of the cleanup (lines 114-116): revoke the `downloadUrl`
the cleanup closure captured when its effect ran. -/
def cleanupRevoke (sys : Sys) (oldUrl : Option Nat) : Sys :=
  match oldUrl with
  | some u => { sys with revoked := u :: sys.revoked }
  | none => sys

/-- The `useEffect([downloadUrl])` cleanup body (lines 106-118).  React
runs it whenever `downloadUrl` changes (before re-running the effect) and
at unmount; `oldUrl` is the `downloadUrl` value the closure captured when
the effect last ran. -/
def effectCleanupRun (sys : Sys) (oldUrl : Option Nat) : Sys :=
  cleanupRevoke (cleanupTimer (cleanupStop sys)) oldUrl

/-- Asynchronous resumptions delivered to the controller: a click on the
toggle affordance, a `dataavailable` event on a session, the firing of an
armed timeout handle, or React running the `useEffect([downloadUrl])`
cleanup (triggered by a `downloadUrl` change or unmount). -/
inductive Event
  | toggle (supported ctorOk : Bool)
  | dataAvail (sid : Nat) (size : Nat)
  | fireTimeout (h : Nat)
  | effectCleanup (oldUrl : Option Nat)
deriving DecidableEq, Repr

/-- One cooperative step of the component: the handler the event invokes,
run to completion.  `dataAvail` is the `ondataavailable` handler
(lines 150-154); `fireTimeout` is the armed timeout callback
(lines 177-180), which fires at most once per handle and only while still
armed (a `clearTimeout`-ed handle never fires); `effectCleanup` is the
`useEffect([downloadUrl])` cleanup (lines 106-118). -/
def step (sys : Sys) : Event → Sys
  | Event.toggle supported ctorOk => handleRecord sys supported ctorOk
  | Event.dataAvail sid size =>
      { sys with
          sessions :=
            updS sys.sessions sid fun s =>
              if size > 0 then { s with chunks := s.chunks ++ [size] }
              else s }
  | Event.fireTimeout h =>
      match armedLookup sys h with
      | none => sys
      | some p =>
          let sys1 :=
            { sys with armed := sys.armed.filter fun q => decide (q.1 ≠ h) }
          let sys2 := stopRecorder sys1 p.2
          { sys2 with pendingTimeout := none }
  | Event.effectCleanup oldUrl => effectCleanupRun sys oldUrl

/-- States of the controller reachable from mount. -/
inductive Reachable : Sys → Prop
  | init : Reachable initSys
  | step {s : Sys} (hs : Reachable s) (e : Event) : Reachable (step s e)

/-- The number of open (recording) encoder sessions. -/
def openCount (l : List Session) : Nat :=
  l.countP fun s => decide (s.rstate = MRState.recording)

/-! ## Renderer (lines 246-471)

Every 2D-context call the draw functions make is recorded as an `Op`;
a frame is the list of ops issued, in order.  Colors and gradients are
carried symbolically. -/

/-- `type Star` (lines 16-21). -/
structure Star where
  x : ℚ
  y : ℚ
  size : ℚ
  twinkleOffset : ℚ
deriving DecidableEq, Repr

/-- `type SkylineSegment` (lines 23-27). -/
structure SkylineSegment where
  base : ℚ
  height : ℚ
  width : ℚ
deriving DecidableEq, Repr

/-- The ambient math functions the renderer applies pointwise
(`Math.sin`, `Math.cos`, `Math.PI`). -/
structure MathModel where
  sin : ℚ → ℚ
  cos : ℚ → ℚ
  pi : ℚ

/-- A CSS color literal appearing in the component. -/
inductive Color
  | hex (v : Nat)
  | rgba (r g b : Nat) (a : ℚ)
  | hsl (h s l : ℚ)
deriving DecidableEq, Repr

/-- A fill/stroke style: a solid color or a gradient with its stops. -/
inductive Paint
  | solid (c : Color)
  | linearGradient (x0 y0 x1 y1 : ℚ) (stops : List (ℚ × Color))
  | radialGradient (x0 y0 r0 x1 y1 r1 : ℚ) (stops : List (ℚ × Color))
deriving DecidableEq, Repr

/-- One 2D-context drawing call. -/
inductive Op
  | clearRect (x y w h : ℚ)
  | setFillStyle (p : Paint)
  | setStrokeStyle (p : Paint)
  | fillRect (x y w h : ℚ)
  | save
  | restore
  | translate (x y : ℚ)
  | rotate (a : ℚ)
  | setGlobalAlpha (a : ℚ)
  | beginPath
  | arc (x y r a0 a1 : ℚ)
  | ellipse (x y rx ry rot a0 a1 : ℚ)
  | fill
  | stroke
  | moveTo (x y : ℚ)
  | lineTo (x y : ℚ)
  | quadraticCurveTo (cx cy x y : ℚ)
  | closePath
  | setLineWidth (w : ℚ)
  | setLineDash (pat : List ℚ)
  | setLineDashOffset (o : ℚ)
  | setLineCapRound
  | setShadowColor (c : Color)
  | setShadowBlur (b : ℚ)
  | setCompositeLighter
deriving DecidableEq, Repr

/-- `drawSky` (lines 265-285). -/
def drawSky (M : MathModel) (width height : ℚ) (stars : List Star)
    (elapsed : ℚ) : List Op :=
  [Op.setFillStyle
      (Paint.linearGradient 0 0 0 height
        [(0, Color.hex 0x020617), (0.35, Color.hex 0x0b183a),
         (1, Color.hex 0x0f172a)]),
   Op.fillRect 0 0 width height,
   Op.save,
   Op.setFillStyle (Paint.solid (Color.hex 0xf8fafc))] ++
  (stars.enum.map fun pr =>
    let index : ℚ := pr.1
    let star := pr.2
    let x := star.x * width + M.sin (elapsed * 0.00005 + index) * 15
    let y := star.y * height
    let twinkle := 0.7 + M.sin (elapsed * 0.002 + star.twinkleOffset) * 0.3
    [Op.setGlobalAlpha (0.3 + twinkle * 0.7),
     Op.beginPath,
     Op.arc x y (star.size * twinkle) 0 (M.pi * 2),
     Op.fill]).flatten ++
  [Op.restore]

/-- The horizontal scroll offset applied to the skyline
(line 298: `(elapsed * 0.02) % (width * 0.35)`). -/
def skylineOffset (width elapsed : ℚ) : ℚ :=
  jsMod (elapsed * 0.02) (width * 0.35)

/-- `drawSkyline` (lines 287-311). -/
def drawSkyline (width height : ℚ) (skyline : List SkylineSegment)
    (elapsed : ℚ) : List Op :=
  let skylineHeight := height * 0.5
  let baseY := height * 0.65
  [Op.save,
   Op.translate (-(skylineOffset width elapsed)) 0] ++
  (skyline.map fun building =>
    let segWidth := building.width * width
    let x := building.base * width
    [Op.setFillStyle (Paint.solid (Color.hex 0x0b1c3f)),
     Op.fillRect x (baseY - skylineHeight * building.height) segWidth
       (skylineHeight * building.height),
     Op.setFillStyle (Paint.solid (Color.rgba 148 197 255 0.06)),
     Op.fillRect (x + segWidth * 0.1)
       (baseY - skylineHeight * building.height) (segWidth * 0.2)
       (skylineHeight * building.height)]).flatten ++
  [Op.restore]

/-- `drawStreet` (lines 313-340). -/
def drawStreet (width height elapsed : ℚ) : List Op :=
  let horizon := height * 0.68
  let roadHeight := height * 0.32
  [Op.setFillStyle
      (Paint.linearGradient 0 horizon 0 height
        [(0, Color.hex 0x0f172a), (1, Color.hex 0x020617)]),
   Op.fillRect 0 horizon width roadHeight,
   Op.setStrokeStyle (Paint.solid (Color.rgba 56 189 248 0.35)),
   Op.setLineWidth 2,
   Op.beginPath,
   Op.moveTo (-width) height,
   Op.lineTo (width * 2) (horizon + 10),
   Op.stroke,
   Op.save,
   Op.setStrokeStyle (Paint.solid (Color.rgba 96 165 250 0.5)),
   Op.setLineWidth 4,
   Op.setLineDash [80, 60],
   Op.setLineDashOffset (jsMod (elapsed * 0.2) 140),
   Op.beginPath,
   Op.moveTo 0 (horizon + roadHeight * 0.55),
   Op.lineTo width height,
   Op.stroke,
   Op.restore]

/-- `drawLimb` (lines 394-420). -/
def drawLimb (M : MathModel) (originX originY length phase : ℚ)
    (isArm : Bool) : List Op :=
  let swing := M.sin phase * (if isArm then 0.9 else 1.2)
  let kneeLift :=
    max 0 (M.sin (phase + M.pi / 2)) * (if isArm then 0 else 0.6)
  let jointY := length * 0.55 - kneeLift * 20
  let jointX := M.sin (phase + M.pi / 2) * 6
  [Op.save,
   Op.translate originX originY,
   Op.setStrokeStyle
     (Paint.solid (if isArm then Color.hex 0xbae6fd else Color.hex 0x1d4ed8)),
   Op.setLineWidth (if isArm then 8 else 10),
   Op.setLineCapRound,
   Op.beginPath,
   Op.moveTo 0 0,
   Op.quadraticCurveTo (jointX + swing * 10) jointY (swing * 30) length,
   Op.stroke,
   Op.restore]

/-- `drawRoundedRect` (lines 450-471). -/
def drawRoundedRect (x y width height radius : ℚ) : List Op :=
  let r := min radius (min (|width| / 2) (|height| / 2))
  [Op.beginPath,
   Op.moveTo (x + r) y,
   Op.lineTo (x + width - r) y,
   Op.quadraticCurveTo (x + width) y (x + width) (y + r),
   Op.lineTo (x + width) (y + height - r),
   Op.quadraticCurveTo (x + width) (y + height) (x + width - r) (y + height),
   Op.lineTo (x + r) (y + height),
   Op.quadraticCurveTo x (y + height) x (y + height - r),
   Op.lineTo x (y + r),
   Op.quadraticCurveTo x y (x + r) y,
   Op.closePath,
   Op.fill]

/-- `drawCharacter` (lines 342-392). -/
def drawCharacter (M : MathModel) (width height cycleProgress walkPhase : ℚ) :
    List Op :=
  let baseX := width * 0.5
  let groundY := height * 0.78
  let stride := M.sin walkPhase * 20
  let bob := M.sin (walkPhase * 2) * 4
  let coatLightness := 52 + M.sin (cycleProgress * M.pi * 2) * 6
  [Op.save,
   Op.translate (baseX + stride * 0.6) (groundY - bob),
   Op.setShadowColor (Color.rgba 37 99 235 0.4),
   Op.setShadowBlur 25,
   Op.setFillStyle (Paint.solid (Color.hex 0x1e293b)),
   Op.beginPath,
   Op.ellipse (-120) 20 140 20 0 0 (M.pi * 2),
   Op.setGlobalAlpha 0.35,
   Op.fill,
   Op.setGlobalAlpha 1,
   Op.save,
   Op.translate 0 (-140),
   Op.setFillStyle (Paint.solid (Color.hex 0x38bdf8)),
   Op.save,
   Op.rotate (M.sin walkPhase * 0.1),
   Op.fillRect (-12) (-90) 24 110,
   Op.restore,
   Op.setFillStyle (Paint.solid (Color.hsl 199 88 coatLightness))] ++
  drawRoundedRect (-24) (-35) 48 70 18 ++
  [Op.setFillStyle (Paint.solid (Color.hex 0xf8fafc)),
   Op.beginPath,
   Op.arc 0 (-120) 26 0 (M.pi * 2),
   Op.fill] ++
  drawLimb M 0 (-60) 18 walkPhase true ++
  drawLimb M 0 (-60) 18 (walkPhase + M.pi) true ++
  drawLimb M 0 0 28 (walkPhase + M.pi) false ++
  drawLimb M 0 0 28 walkPhase false ++
  [Op.restore,
   Op.restore]

/-- `drawAtmospherics` (lines 422-448). -/
def drawAtmospherics (M : MathModel) (width height elapsed : ℚ) : List Op :=
  let glowCount : Nat := 5
  [Op.save] ++
  ((List.range glowCount).map fun i =>
    let iq : ℚ := i
    let x := (iq / glowCount) * width + M.sin (elapsed * 0.0004 + iq) * 40
    let y := height * 0.62 + M.cos (elapsed * 0.0007 + iq) * 10
    [Op.setFillStyle
       (Paint.radialGradient x y 0 x y 180
         [(0, Color.rgba 56 189 248 0.2), (1, Color.rgba 56 189 248 0)]),
     Op.fillRect (x - 180) (y - 180) 360 360]).flatten ++
  [Op.setCompositeLighter,
   Op.setStrokeStyle (Paint.solid (Color.rgba 56 189 248 0.08)),
   Op.setLineWidth 1,
   Op.beginPath] ++
  ((List.range (⌈width / 8⌉.toNat)).map fun k =>
    let i : ℚ := 8 * (k : ℚ)
    let waveY :=
      height * 0.75 + M.sin (i * 0.02 + elapsed * 0.004) * 6 +
        M.sin (i * 0.05 + elapsed * 0.002) * 4
    Op.lineTo i waveY) ++
  [Op.stroke,
   Op.restore]

/-- `renderFrame` (lines 246-263). -/
def renderFrame (M : MathModel) (cycleProgress walkPhase : ℚ)
    (stars : List Star) (skyline : List SkylineSegment) (elapsed : ℚ) :
    List Op :=
  let width := CANVAS_WIDTH
  let height := CANVAS_HEIGHT
  Op.clearRect 0 0 width height ::
    (drawSky M width height stars elapsed ++
      drawSkyline width height skyline elapsed ++
      drawStreet width height elapsed ++
      drawCharacter M width height cycleProgress walkPhase ++
      drawAtmospherics M width height elapsed)

/-- The repeating cycle-progress value of the animation clock
(line 83: `(elapsed % WALK_CYCLE_MS) / WALK_CYCLE_MS`). -/
def cycleProgress (elapsed : ℚ) : ℚ :=
  jsMod elapsed WALK_CYCLE_MS / WALK_CYCLE_MS

/-- The per-frame `draw` callback body (lines 81-88): derives
`cycleProgress` and `walkPhase` from the elapsed time and renders. -/
def scene (M : MathModel) (stars : List Star)
    (skyline : List SkylineSegment) (elapsed : ℚ) : List Op :=
  renderFrame M (cycleProgress elapsed) (cycleProgress elapsed * M.pi * 2)
    stars skyline elapsed

/-! ## An interpreter for the translation state of emitted ops

Used to talk about where `fillRect` calls land in absolute canvas
coordinates, tracking `save` / `restore` / `translate` (the only transform
ops `drawSkyline` issues). -/

/-- An axis-aligned rectangle in absolute canvas coordinates. -/
structure Rect where
  x : ℚ
  y : ℚ
  w : ℚ
  h : ℚ
deriving DecidableEq, Repr

/-- Collect the absolute rectangles painted by `fillRect` ops, threading
the current translation and the save-stack. -/
def collectRects (tx ty : ℚ) (stack : List (ℚ × ℚ)) : List Op → List Rect
  | [] => []
  | Op.translate dx dy :: rest => collectRects (tx + dx) (ty + dy) stack rest
  | Op.save :: rest => collectRects tx ty ((tx, ty) :: stack) rest
  | Op.restore :: rest =>
      match stack with
      | [] => collectRects tx ty [] rest
      | (tx0, ty0) :: s => collectRects tx0 ty0 s rest
  | Op.fillRect x y w h :: rest =>
      { x := tx + x, y := ty + y, w := w, h := h } ::
        collectRects tx ty stack rest
  | _ :: rest => collectRects tx ty stack rest

/-- Does some collected rectangle cover horizontal position `px`? -/
def coversX (rects : List Rect) (px : ℚ) : Bool :=
  rects.any fun r => decide (r.x ≤ px) && decide (px ≤ r.x + r.w)

/-! ## Arithmetic facts about the JavaScript remainder -/

theorem jsTrunc_eq_floor (q : ℚ) (h : 0 ≤ q) : jsTrunc q = ⌊q⌋ := by
  simp [jsTrunc, not_lt.mpr h]

theorem jsMod_eq_fract_mul (a b : ℚ) (ha : 0 ≤ a) (hb : 0 < b) :
    jsMod a b = b * Int.fract (a / b) := by
  have hq : (0 : ℚ) ≤ a / b := div_nonneg ha hb.le
  rw [jsMod, jsTrunc_eq_floor _ hq, Int.fract]
  have hbne : b ≠ 0 := ne_of_gt hb
  field_simp

theorem jsMod_nonneg (a b : ℚ) (ha : 0 ≤ a) (hb : 0 < b) :
    0 ≤ jsMod a b := by
  rw [jsMod_eq_fract_mul a b ha hb]
  exact mul_nonneg hb.le (Int.fract_nonneg _)

theorem jsMod_lt (a b : ℚ) (ha : 0 ≤ a) (hb : 0 < b) : jsMod a b < b := by
  rw [jsMod_eq_fract_mul a b ha hb]
  calc b * Int.fract (a / b) < b * 1 :=
        mul_lt_mul_of_pos_left (Int.fract_lt_one _) hb
    _ = b := mul_one b

theorem cycleProgress_eq_fract (t : ℚ) (h : 0 ≤ t) :
    cycleProgress t = Int.fract (t / 1400) := by
  have h1400 : (0 : ℚ) < 1400 := by norm_num
  rw [cycleProgress, WALK_CYCLE_MS, jsMod_eq_fract_mul t 1400 h h1400]
  exact mul_div_cancel_left₀ _ (by norm_num)

/-! ## Claims about the renderer -/

/-- Claim C3: for every elapsed time `t` and fixed star and skyline
datasets, the frame-rendering routine is a pure (deterministic) function of
`(t, stars, skyline)`: two invocations of the per-frame draw body with the
same `t` and the same datasets issue the same sequence of drawing
operations, with no state carried between calls except what is passed
explicitly. -/
theorem claim_C3 (M : MathModel) (stars : List Star)
    (skyline : List SkylineSegment) (t t' : ℚ) (h : t = t') :
    scene M stars skyline t = scene M stars skyline t' := by
  rw [h]

/-- A concrete math oracle for witnesses. -/
def M0 : MathModel :=
  { sin := fun _ => 0, cos := fun _ => 0, pi := 355 / 113 }

/-- A concrete star for witnesses. -/
def star0 : Star :=
  { x := 1 / 2, y := 1 / 4, size := 1, twinkleOffset := 0 }

theorem claim_C3_witness :
    (3 : ℚ) = 3 ∧
      scene M0 [star0] [] 3 = scene M0 [star0] [] 3 :=
  ⟨rfl, claim_C3 M0 [star0] [] 3 3 rfl⟩

/-- Claim C4: for every elapsed time `t ≥ 0`, the cycle progress value
satisfies `cycleProgress (t + 1400) = cycleProgress t`, lies in `[0, 1)`,
and is strictly increasing within each period of 1400 time-units. -/
theorem claim_C4 :
    (∀ t : ℚ, 0 ≤ t →
      cycleProgress (t + WALK_CYCLE_MS) = cycleProgress t ∧
        0 ≤ cycleProgress t ∧ cycleProgress t < 1) ∧
    (∀ (k : ℕ) (t1 t2 : ℚ),
      WALK_CYCLE_MS * k ≤ t1 → t1 < t2 → t2 < WALK_CYCLE_MS * (k + 1) →
      cycleProgress t1 < cycleProgress t2) := by
  have h1400 : (0 : ℚ) < 1400 := by norm_num
  constructor
  · intro t ht
    have ht' : 0 ≤ t + WALK_CYCLE_MS := by
      rw [WALK_CYCLE_MS]; linarith
    rw [cycleProgress_eq_fract t ht, cycleProgress_eq_fract _ ht',
      WALK_CYCLE_MS]
    refine ⟨?_, Int.fract_nonneg _, Int.fract_lt_one _⟩
    have hdiv : (t + 1400) / 1400 = t / 1400 + ((1 : ℤ) : ℚ) := by
      push_cast
      field_simp
    rw [hdiv, Int.fract_add_int]
  · intro k t1 t2 h1 h12 h2
    have hk0 : (0 : ℚ) ≤ WALK_CYCLE_MS * k := by
      rw [WALK_CYCLE_MS]; positivity
    have ht1 : 0 ≤ t1 := le_trans hk0 h1
    have ht2 : 0 ≤ t2 := le_trans ht1 (le_of_lt h12)
    rw [cycleProgress_eq_fract t1 ht1, cycleProgress_eq_fract t2 ht2]
    rw [WALK_CYCLE_MS] at h1 h2
    have hf1 : ⌊t1 / 1400⌋ = (k : ℤ) := by
      rw [Int.floor_eq_iff]
      constructor
      · rw [le_div_iff₀ h1400]; push_cast; linarith
      · rw [div_lt_iff₀ h1400]; push_cast at h2 ⊢; linarith
    have hf2 : ⌊t2 / 1400⌋ = (k : ℤ) := by
      rw [Int.floor_eq_iff]
      constructor
      · rw [le_div_iff₀ h1400]; push_cast; linarith
      · rw [div_lt_iff₀ h1400]; push_cast at h2 ⊢; linarith
    have hdiv : t1 / 1400 < t2 / 1400 := by gcongr
    rw [Int.fract, Int.fract, hf1, hf2]
    linarith

theorem claim_C4_witness :
    cycleProgress (100 + WALK_CYCLE_MS) = cycleProgress 100 ∧
      0 ≤ cycleProgress 100 ∧ cycleProgress 100 < 1 ∧
      cycleProgress 100 < cycleProgress 200 := by
  obtain ⟨hper, hmono⟩ := claim_C4
  obtain ⟨a, b, c⟩ := hper 100 (by norm_num)
  refine ⟨a, b, c, hmono 0 100 200 ?_ (by norm_num) ?_⟩
  · rw [WALK_CYCLE_MS]; norm_num
  · rw [WALK_CYCLE_MS]; norm_num

/-- Claim C8, amended: for every elapsed time `t ≥ 0` the skyline is drawn
under a leftward horizontal translation whose magnitude is
`(t * 0.02) mod (0.35 * width)`, wrapping into `[0, 0.35 * width)`; but the
scroll does not cover the visible horizontal range at all times, because
only a single copy of the skyline is drawn (see the counterexample). -/
theorem claim_C8 (skyline : List SkylineSegment) (t : ℚ) (ht : 0 ≤ t) :
    (∃ rest,
      drawSkyline CANVAS_WIDTH CANVAS_HEIGHT skyline t =
        Op.save :: Op.translate (-(skylineOffset CANVAS_WIDTH t)) 0 :: rest) ∧
    skylineOffset CANVAS_WIDTH t = jsMod (t * 0.02) (CANVAS_WIDTH * 0.35) ∧
    0 ≤ skylineOffset CANVAS_WIDTH t ∧
    skylineOffset CANVAS_WIDTH t < CANVAS_WIDTH * 0.35 := by
  have ha : (0 : ℚ) ≤ t * 0.02 := mul_nonneg ht (by norm_num)
  have hb : (0 : ℚ) < CANVAS_WIDTH * 0.35 := by rw [CANVAS_WIDTH]; norm_num
  exact ⟨⟨_, rfl⟩, rfl, jsMod_nonneg _ _ ha hb, jsMod_lt _ _ ha hb⟩

/-- A skyline dataset of the shape `generateSkyline` produces
(lines 37-47): `base = i / 12`, widths in `[0.08, 0.2)`, heights in
`[0.3, 0.55)`. -/
def skylineCE : List SkylineSegment :=
  [{ base := 0, width := 0.19, height := 0.4 },
   { base := 1 / 12, width := 0.19, height := 0.4 },
   { base := 2 / 12, width := 0.19, height := 0.4 },
   { base := 3 / 12, width := 0.19, height := 0.4 },
   { base := 4 / 12, width := 0.19, height := 0.4 },
   { base := 5 / 12, width := 0.19, height := 0.4 },
   { base := 6 / 12, width := 0.19, height := 0.4 },
   { base := 7 / 12, width := 0.19, height := 0.4 },
   { base := 8 / 12, width := 0.19, height := 0.4 },
   { base := 9 / 12, width := 0.19, height := 0.4 },
   { base := 10 / 12, width := 0.19, height := 0.4 },
   { base := 11 / 12, width := 0.19, height := 0.4 }]

/-- The skyline scroll offset at elapsed time 15000 is 300 pixels. -/
theorem skylineOffset_15000 : skylineOffset 960 15000 = 300 := by
  rw [skylineOffset]
  have h1 : (15000 : ℚ) * 0.02 = 300 := by norm_num
  have h2 : (960 : ℚ) * 0.35 = 336 := by norm_num
  rw [h1, h2, jsMod, jsTrunc, if_neg (by norm_num)]
  have h3 : ⌊(300 : ℚ) / 336⌋ = 0 := by
    rw [Int.floor_eq_zero_iff]
    constructor <;> norm_num
  rw [h3]
  norm_num

theorem claim_C8_counterexample :
    coversX
        (collectRects 0 0 []
          (drawSkyline CANVAS_WIDTH CANVAS_HEIGHT skylineCE 15000)) 900 =
      false ∧
    (0 : ℚ) ≤ 900 ∧ (900 : ℚ) ≤ CANVAS_WIDTH ∧ (0 : ℚ) ≤ 15000 := by
  refine ⟨?_, by norm_num, by rw [CANVAS_WIDTH]; norm_num, by norm_num⟩
  simp only [drawSkyline, skylineCE, skylineOffset_15000, CANVAS_WIDTH,
    CANVAS_HEIGHT, List.map, List.flatten, List.append, List.cons_append,
    List.nil_append]
  norm_num [collectRects, coversX, List.any]

/-! ## List lemmas about session lookup and update -/

theorem findS_some {l : List Session} {sid : Nat} {s : Session}
    (h : findS l sid = some s) : s.sid = sid ∧ s ∈ l := by
  rw [findS] at h
  exact ⟨by simpa using List.find?_some h, List.mem_of_find?_eq_some h⟩

theorem findS_updS (l : List Session) (sid sid' : Nat)
    (f : Session → Session) (hf : ∀ s, (f s).sid = s.sid) :
    findS (updS l sid f) sid' =
      (findS l sid').map fun s => if s.sid = sid then f s else s := by
  induction l with
  | nil => rfl
  | cons a t ih =>
      have hu : updS (a :: t) sid f =
          (if a.sid = sid then f a else a) :: updS t sid f := rfl
      rw [hu]
      by_cases ha : a.sid = sid
      · rw [if_pos ha]
        by_cases ha' : a.sid = sid'
        · have h1 : ((f a).sid = sid') := by rw [hf a, ha']
          rw [findS, List.find?_cons_of_pos _ (by simpa using h1), findS,
            List.find?_cons_of_pos _ (by simpa using ha')]
          simp [if_pos ha]
        · have h1 : ¬ ((f a).sid = sid') := by rw [hf a]; exact ha'
          rw [findS, List.find?_cons_of_neg _ (by simpa using h1), findS,
            List.find?_cons_of_neg _ (by simpa using ha')]
          exact ih
      · rw [if_neg ha]
        by_cases ha' : a.sid = sid'
        · rw [findS, List.find?_cons_of_pos _ (by simpa using ha'), findS,
            List.find?_cons_of_pos _ (by simpa using ha')]
          simp [if_neg ha]
        · rw [findS, List.find?_cons_of_neg _ (by simpa using ha'), findS,
            List.find?_cons_of_neg _ (by simpa using ha')]
          exact ih

theorem findS_append_left {l : List Session} {sid : Nat} {s : Session}
    (l' : List Session) (h : findS l sid = some s) :
    findS (l ++ l') sid = some s := by
  induction l with
  | nil => simp [findS] at h
  | cons a t ih =>
      by_cases ha : a.sid = sid
      · simp_all [findS, List.find?_cons, ha]
      · simp_all [findS, List.find?_cons, ha]

theorem findS_append_right {l : List Session} {sid : Nat}
    (l' : List Session) (h : ∀ s ∈ l, s.sid ≠ sid) :
    findS (l ++ l') sid = findS l' sid := by
  induction l with
  | nil => rfl
  | cons a t ih =>
      have ha : a.sid ≠ sid := h a (List.mem_cons_self a t)
      have ht : ∀ s ∈ t, s.sid ≠ sid := fun s hs => h s (List.mem_cons_of_mem a hs)
      simpa [findS, List.find?_cons, ha] using ih ht

theorem updS_map_sid (l : List Session) (sid : Nat) (f : Session → Session)
    (hf : ∀ s, (f s).sid = s.sid) :
    (updS l sid f).map Session.sid = l.map Session.sid := by
  induction l with
  | nil => rfl
  | cons a t ih =>
      by_cases ha : a.sid = sid <;> simp [updS, ha, hf a] at * <;> exact ih

theorem mem_updS {l : List Session} {sid : Nat} {f : Session → Session}
    {t : Session} (h : t ∈ updS l sid f) :
    ∃ s ∈ l, t = if s.sid = sid then f s else s := by
  rw [updS] at h
  obtain ⟨s, hs, rfl⟩ := List.mem_map.mp h
  exact ⟨s, hs, rfl⟩

theorem stopS_sid (s : Session) : (stopS s).sid = s.sid := rfl

/-! ## The controller invariant -/

/-- Facts maintained at every reachable controller state: session ids are
fresh and distinct, only the session held by `recorderRef` can have an open
encoder and only while the component state is `recording`, a `recording`
component state has an open ref'd session, and all buffered chunks and all
assembled resources consist of positive-size chunks. -/
structure Inv (sys : Sys) : Prop where
  fresh : ∀ s ∈ sys.sessions, s.sid < sys.nextSid
  nodupSid : (sys.sessions.map Session.sid).Nodup
  onlyRef : ∀ s ∈ sys.sessions, s.rstate = MRState.recording →
    sys.recorderRef = some s.sid ∧
      sys.recorderState = RecorderState.recording
  refRec : sys.recorderState = RecorderState.recording →
    ∃ sid s, sys.recorderRef = some sid ∧
      findS sys.sessions sid = some s ∧ s.rstate = MRState.recording
  chunksPos : ∀ s ∈ sys.sessions, ∀ c ∈ s.chunks, 0 < c
  urlsPos : ∀ pr ∈ sys.urls, ∀ c ∈ pr.2, 0 < c

theorem inv_init : Inv initSys := by
  refine ⟨?_, ?_, ?_, ?_, ?_, ?_⟩ <;> simp [initSys]

theorem inv_onStop_stop (sys : Sys) (sid : Nat) (s : Session)
    (hinv : Inv sys) (hfind : findS sys.sessions sid = some s)
    (hrs : s.rstate = MRState.recording) :
    Inv (onStop { sys with sessions := updS sys.sessions sid stopS }
      s.chunks) := by
  obtain ⟨hsid, hmem⟩ := findS_some hfind
  have hnorec : ∀ t ∈ updS sys.sessions sid stopS,
      t.rstate ≠ MRState.recording := by
    intro t ht
    obtain ⟨u, hu, htu⟩ := mem_updS ht
    by_cases hcase : u.sid = sid
    · rw [htu, if_pos hcase]
      simp [stopS]
    · rw [htu, if_neg hcase]
      intro hur
      have h1 := (hinv.onlyRef u hu hur).1
      have h2 := (hinv.onlyRef s hmem hrs).1
      have h3 : u.sid = s.sid := by
        rw [h1] at h2
        injection h2
      exact hcase (h3.trans hsid)
  have hfresh : ∀ t ∈ updS sys.sessions sid stopS, t.sid < sys.nextSid := by
    intro t ht
    obtain ⟨u, hu, htu⟩ := mem_updS ht
    have hts : t.sid = u.sid := by
      rw [htu]
      split_ifs <;> rfl
    rw [hts]
    exact hinv.fresh u hu
  have hnodup : ((updS sys.sessions sid stopS).map Session.sid).Nodup := by
    rw [updS_map_sid sys.sessions sid stopS stopS_sid]
    exact hinv.nodupSid
  have hchunks : ∀ t ∈ updS sys.sessions sid stopS, ∀ c ∈ t.chunks, 0 < c := by
    intro t ht
    obtain ⟨u, hu, htu⟩ := mem_updS ht
    have hch : t.chunks = u.chunks := by
      rw [htu]
      split_ifs <;> rfl
    rw [hch]
    exact hinv.chunksPos u hu
  rw [onStop]
  by_cases hcs : s.chunks = []
  · rw [if_pos hcs]
    refine ⟨hfresh, hnodup, ?_, ?_, hchunks, hinv.urlsPos⟩
    · intro t ht htr
      exact absurd htr (hnorec t ht)
    · intro hcontra
      simp at hcontra
  · rw [if_neg hcs]
    refine ⟨hfresh, hnodup, ?_, ?_, hchunks, ?_⟩
    · intro t ht htr
      exact absurd htr (hnorec t ht)
    · intro hcontra
      simp at hcontra
    · intro pr hpr
      rcases List.mem_cons.mp hpr with hpr1 | hpr2
      · rw [hpr1]
        exact hinv.chunksPos s hmem
      · exact hinv.urlsPos pr hpr2

theorem inv_stopRecorder (sys : Sys) (sid : Nat) (hinv : Inv sys) :
    Inv (stopRecorder sys sid) := by
  rw [stopRecorder]
  split
  · exact hinv
  next s hfind =>
    by_cases hrs : s.rstate = MRState.recording
    · rw [if_pos hrs]
      exact inv_onStop_stop sys sid s hinv hfind hrs
    · rw [if_neg hrs]
      exact hinv

theorem inv_cleanupStop (sys : Sys) (hinv : Inv sys) :
    Inv (cleanupStop sys) := by
  cases href : sys.recorderRef with
  | none => simpa [cleanupStop, href] using hinv
  | some sid => simpa [cleanupStop, href] using inv_stopRecorder sys sid hinv

theorem inv_cleanupTimer (sys : Sys) (hinv : Inv sys) :
    Inv (cleanupTimer sys) := by
  cases hp : sys.pendingTimeout with
  | none => simpa [cleanupTimer, hp] using hinv
  | some hdl =>
      simp only [cleanupTimer, hp]
      exact ⟨hinv.fresh, hinv.nodupSid, hinv.onlyRef, hinv.refRec,
        hinv.chunksPos, hinv.urlsPos⟩

theorem inv_cleanupRevoke (sys : Sys) (oldUrl : Option Nat)
    (hinv : Inv sys) : Inv (cleanupRevoke sys oldUrl) := by
  cases oldUrl with
  | none => simpa [cleanupRevoke] using hinv
  | some u =>
      simp only [cleanupRevoke]
      exact ⟨hinv.fresh, hinv.nodupSid, hinv.onlyRef, hinv.refRec,
        hinv.chunksPos, hinv.urlsPos⟩

theorem inv_step (sys : Sys) (e : Event) (hinv : Inv sys) :
    Inv (step sys e) := by
  cases e with
  | toggle sup ok =>
      simp only [step, handleRecord]
      by_cases hsup : sup = false
      · rw [if_pos hsup]
        exact ⟨hinv.fresh, hinv.nodupSid, hinv.onlyRef, hinv.refRec,
          hinv.chunksPos, hinv.urlsPos⟩
      · rw [if_neg hsup]
        by_cases hrec : sys.recorderState = RecorderState.recording
        · rw [if_pos hrec]
          cases href : sys.recorderRef with
          | none => exact hinv
          | some sid => exact inv_stopRecorder sys sid hinv
        · rw [if_neg hrec]
          by_cases hok : ok = false
          · rw [if_pos hok]
            exact ⟨hinv.fresh, hinv.nodupSid, hinv.onlyRef, hinv.refRec,
              hinv.chunksPos, hinv.urlsPos⟩
          · rw [if_neg hok]
            have hallinact :
                ∀ s ∈ sys.sessions, s.rstate ≠ MRState.recording := by
              intro s hs hsr
              exact hrec (hinv.onlyRef s hs hsr).2
            have hne : ∀ s ∈ sys.sessions, s.sid ≠ sys.nextSid := by
              intro s hs
              exact Nat.ne_of_lt (hinv.fresh s hs)
            refine ⟨?_, ?_, ?_, ?_, ?_, hinv.urlsPos⟩
            · intro t ht
              rcases List.mem_append.mp ht with ht1 | ht2
              · exact Nat.lt_succ_of_lt (hinv.fresh t ht1)
              · rw [List.mem_singleton.mp ht2]
                exact Nat.lt_succ_self _
            · rw [List.map_append]
              rw [List.nodup_append]
              refine ⟨hinv.nodupSid, List.nodup_singleton _, ?_⟩
              intro a ha hb
              rw [List.map_singleton, List.mem_singleton] at hb
              obtain ⟨u, hu, hua⟩ := List.mem_map.mp ha
              exact hne u hu (hua.trans hb)
            · intro t ht htr
              rcases List.mem_append.mp ht with ht1 | ht2
              · exact absurd htr (hallinact t ht1)
              · rw [List.mem_singleton.mp ht2]
                exact ⟨rfl, rfl⟩
            · intro _
              refine ⟨sys.nextSid,
                { sid := sys.nextSid, rstate := MRState.recording,
                  chunks := [], stopCount := 0 }, rfl, ?_, rfl⟩
              rw [findS_append_right _ hne]
              simp [findS]
            · intro t ht
              rcases List.mem_append.mp ht with ht1 | ht2
              · exact hinv.chunksPos t ht1
              · rw [List.mem_singleton.mp ht2]
                intro c hc
                simp at hc
  | dataAvail sid size =>
      simp only [step]
      have hf : ∀ s : Session,
          ((fun s : Session =>
            if size > 0 then { s with chunks := s.chunks ++ [size] }
            else s) s).sid = s.sid := by
        intro s
        split_ifs <;> rfl
      have hrst : ∀ s : Session,
          ((fun s : Session =>
            if size > 0 then { s with chunks := s.chunks ++ [size] }
            else s) s).rstate = s.rstate := by
        intro s
        split_ifs <;> rfl
      refine ⟨?_, ?_, ?_, ?_, ?_, hinv.urlsPos⟩
      · intro t ht
        obtain ⟨u, hu, htu⟩ := mem_updS ht
        have hts : t.sid = u.sid := by
          rw [htu]
          split_ifs <;> rfl
        rw [hts]
        exact hinv.fresh u hu
      · rw [updS_map_sid _ _ _ hf]
        exact hinv.nodupSid
      · intro t ht htr
        obtain ⟨u, hu, htu⟩ := mem_updS ht
        have hts : t.sid = u.sid := by
          rw [htu]
          split_ifs <;> rfl
        have htsr : t.rstate = u.rstate := by
          rw [htu]
          split_ifs <;> rfl
        rw [hts]
        exact hinv.onlyRef u hu (htsr ▸ htr)
      · intro hrec
        obtain ⟨sid0, s0, href, hfind, hrs⟩ := hinv.refRec hrec
        refine ⟨sid0, if s0.sid = sid then
          (if size > 0 then { s0 with chunks := s0.chunks ++ [size] }
            else s0) else s0, href, ?_, ?_⟩
        · rw [findS_updS _ _ _ _ hf, hfind]
          rfl
        · split_ifs <;> simp [hrs]
      · intro t ht
        obtain ⟨u, hu, htu⟩ := mem_updS ht
        intro c hc
        by_cases hcase : u.sid = sid
        · rw [htu, if_pos hcase] at hc
          by_cases hsz : size > 0
          · rw [if_pos hsz] at hc
            simp only at hc
            rcases List.mem_append.mp hc with hc1 | hc2
            · exact hinv.chunksPos u hu c hc1
            · rw [List.mem_singleton.mp hc2]
              exact hsz
          · rw [if_neg hsz] at hc
            exact hinv.chunksPos u hu c hc
        · rw [htu, if_neg hcase] at hc
          exact hinv.chunksPos u hu c hc
  | fireTimeout h =>
      cases harm : armedLookup sys h with
      | none => simpa [step, harm] using hinv
      | some p =>
          simp only [step, harm]
          have hinv1 :
              Inv { sys with
                armed := sys.armed.filter fun q => decide (q.1 ≠ h) } :=
            ⟨hinv.fresh, hinv.nodupSid, hinv.onlyRef, hinv.refRec,
              hinv.chunksPos, hinv.urlsPos⟩
          have hinv2 := inv_stopRecorder _ p.2 hinv1
          exact ⟨hinv2.fresh, hinv2.nodupSid, hinv2.onlyRef, hinv2.refRec,
            hinv2.chunksPos, hinv2.urlsPos⟩
  | effectCleanup oldUrl =>
      exact inv_cleanupRevoke _ oldUrl
        (inv_cleanupTimer _ (inv_cleanupStop sys hinv))

theorem reachable_inv {sys : Sys} (h : Reachable sys) : Inv sys := by
  induction h with
  | init => exact inv_init
  | step hs e ih => exact inv_step _ e ih

theorem openCount_le_one_aux (ref : Option Nat) (l : List Session)
    (hnd : (l.map Session.sid).Nodup)
    (h : ∀ s ∈ l, s.rstate = MRState.recording → ref = some s.sid) :
    openCount l ≤ 1 := by
  induction l with
  | nil => simp [openCount]
  | cons a t ih =>
      have hnd' : (t.map Session.sid).Nodup :=
        (List.nodup_cons.mp (by exact hnd)).2
      have hnin : a.sid ∉ t.map Session.sid :=
        (List.nodup_cons.mp (by exact hnd)).1
      rw [openCount, List.countP_cons]
      by_cases ha : a.rstate = MRState.recording
      · have hcount0 : t.countP
            (fun s => decide (s.rstate = MRState.recording)) = 0 := by
          rw [List.countP_eq_zero]
          intro u hu
          simp only [decide_eq_true_eq]
          intro hur
          have h1 := h a (List.mem_cons_self a t) ha
          have h2 := h u (List.mem_cons_of_mem a hu) hur
          have h3 : a.sid = u.sid := by
            rw [h1] at h2
            injection h2
          exact hnin (h3 ▸ List.mem_map_of_mem Session.sid hu)
        simp [ha, hcount0]
      · simp only [ha, decide_eq_true_eq, if_neg ha, decide_False]
        simpa [openCount] using
          ih hnd' (fun s hs => h s (List.mem_cons_of_mem a hs))

theorem inv_openCount {sys : Sys} (hinv : Inv sys) :
    openCount sys.sessions ≤ 1 :=
  openCount_le_one_aux sys.recorderRef sys.sessions hinv.nodupSid
    (fun s hs hsr => (hinv.onlyRef s hs hsr).1)

/-! ## Computation lemmas for individual transitions -/

theorem toggle_stop_eq (sys : Sys) (sid : Nat) (ok : Bool)
    (hrec : sys.recorderState = RecorderState.recording)
    (href : sys.recorderRef = some sid) :
    step sys (Event.toggle true ok) = stopRecorder sys sid := by
  simp [step, handleRecord, hrec, href]

theorem stopRecorder_eq (sys : Sys) (sid : Nat) (s : Session)
    (hfind : findS sys.sessions sid = some s)
    (hrs : s.rstate = MRState.recording) :
    stopRecorder sys sid =
      onStop { sys with sessions := updS sys.sessions sid stopS }
        s.chunks := by
  unfold stopRecorder
  rw [hfind]
  show (if s.rstate = MRState.recording then _ else sys) = _
  rw [if_pos hrs]

theorem stopRecorder_noop (sys : Sys) (sid : Nat) (s : Session)
    (hfind : findS sys.sessions sid = some s)
    (hrs : s.rstate ≠ MRState.recording) :
    stopRecorder sys sid = sys := by
  unfold stopRecorder
  rw [hfind]
  show (if s.rstate = MRState.recording then _ else sys) = _
  rw [if_neg hrs]

theorem onStop_ne (sys : Sys) (cs : List Nat) (hcs : cs ≠ []) :
    onStop sys cs =
      { sys with
          downloadUrl := some sys.nextUrl
          urls := (sys.nextUrl, cs) :: sys.urls
          nextUrl := sys.nextUrl + 1
          message := Msg.ready
          recorderState := RecorderState.idle } := by
  rw [onStop, if_neg hcs]

theorem onStop_nil (sys : Sys) :
    onStop sys [] =
      { sys with
          message := Msg.noData
          recorderState := RecorderState.idle } := by
  rw [onStop, if_pos rfl]

theorem fireTimeout_eq (sys : Sys) (h sid : Nat)
    (harm : armedLookup sys h = some (h, sid)) :
    step sys (Event.fireTimeout h) =
      { stopRecorder
          { sys with armed := sys.armed.filter fun q => decide (q.1 ≠ h) }
          sid with
        pendingTimeout := none } := by
  simp only [step, harm]

theorem fireTimeout_unarmed (sys : Sys) (h : Nat)
    (harm : armedLookup sys h = none) :
    step sys (Event.fireTimeout h) = sys := by
  simp only [step, harm]

/-! ## Concrete reachable states used by witnesses -/

/-- The state reached by starting a recording right after mount. -/
def W1 : Sys := step initSys (Event.toggle true true)

/-- `W1` after one 5-byte chunk has arrived. -/
def W2 : Sys := step W1 (Event.dataAvail 0 5)

theorem reachable_W1 : Reachable W1 := Reachable.init.step _

theorem reachable_W2 : Reachable W2 := reachable_W1.step _

/-! ## Claims about the capture controller -/

/-- Claim C7: invoking the start affordance while the surface does not
support live pixel-stream capture reports the unsupported-feature message
and changes nothing else: the state stays idle and sessions, chunks,
downloadUrl and the recorder ref are all unchanged. -/
theorem claim_C7 (sys : Sys) (ok : Bool)
    (hidle : sys.recorderState = RecorderState.idle) :
    step sys (Event.toggle false ok) =
      { sys with message := Msg.unsupported } ∧
    (step sys (Event.toggle false ok)).recorderState =
      RecorderState.idle :=
  ⟨rfl, hidle⟩

theorem claim_C7_witness :
    initSys.recorderState = RecorderState.idle ∧
      step initSys (Event.toggle false true) =
        { initSys with message := Msg.unsupported } ∧
      (step initSys (Event.toggle false true)).recorderState =
        RecorderState.idle :=
  ⟨rfl, claim_C7 initSys true rfl⟩

/-- Claim C2: at every reachable state at most one encoder session is
open; and invoking the affordance while the state is `recording` stops the
ref'd session without constructing a new one (the session list keeps its
length, `nextSid` is unchanged, and at most one session stays open). -/
theorem claim_C2 (sys : Sys) (ok : Bool) (hR : Reachable sys) :
    openCount sys.sessions ≤ 1 ∧
    (sys.recorderState = RecorderState.recording →
      (step sys (Event.toggle true ok)).nextSid = sys.nextSid ∧
      (step sys (Event.toggle true ok)).sessions.length =
        sys.sessions.length ∧
      openCount (step sys (Event.toggle true ok)).sessions ≤ 1 ∧
      ∃ sid s, sys.recorderRef = some sid ∧
        findS sys.sessions sid = some s ∧
        s.rstate = MRState.recording ∧
        findS (step sys (Event.toggle true ok)).sessions sid =
          some (stopS s)) := by
  have hinv := reachable_inv hR
  refine ⟨inv_openCount hinv, ?_⟩
  intro hrec
  obtain ⟨sid, s, href, hfind, hrs⟩ := hinv.refRec hrec
  have hstep := toggle_stop_eq sys sid ok hrec href
  have hstop := stopRecorder_eq sys sid s hfind hrs
  have hsess : (step sys (Event.toggle true ok)).sessions =
      updS sys.sessions sid stopS := by
    rw [hstep, hstop, onStop]
    split_ifs <;> rfl
  have hnext : (step sys (Event.toggle true ok)).nextSid = sys.nextSid := by
    rw [hstep, hstop, onStop]
    split_ifs <;> rfl
  refine ⟨hnext, ?_, ?_, sid, s, href, hfind, hrs, ?_⟩
  · rw [hsess]
    simp [updS]
  · exact inv_openCount (inv_step sys (Event.toggle true ok) hinv)
  · rw [hsess, findS_updS _ _ _ _ stopS_sid, hfind]
    simp [(findS_some hfind).1]

theorem claim_C2_witness :
    openCount W1.sessions ≤ 1 ∧
      (step W1 (Event.toggle true true)).nextSid = W1.nextSid ∧
      (step W1 (Event.toggle true true)).sessions.length =
        W1.sessions.length ∧
      openCount (step W1 (Event.toggle true true)).sessions ≤ 1 ∧
      ∃ sid s, W1.recorderRef = some sid ∧
        findS W1.sessions sid = some s ∧
        s.rstate = MRState.recording ∧
        findS (step W1 (Event.toggle true true)).sessions sid =
          some (stopS s) := by
  obtain ⟨h1, h2⟩ := claim_C2 W1 true reachable_W1
  exact ⟨h1, h2 rfl⟩

/-- Claim C9: at every reachable state every buffered chunk of every
session is of positive size, every assembled resource is built only from
positive-size chunks, and delivering a zero-size chunk leaves every
session's buffer unchanged (the handler discards it). -/
theorem claim_C9 (sys : Sys) (sid : Nat) (hR : Reachable sys) :
    (∀ s ∈ sys.sessions, ∀ c ∈ s.chunks, 0 < c) ∧
    (∀ pr ∈ sys.urls, ∀ c ∈ pr.2, 0 < c) ∧
    (step sys (Event.dataAvail sid 0)).sessions = sys.sessions := by
  have hinv := reachable_inv hR
  refine ⟨hinv.chunksPos, hinv.urlsPos, ?_⟩
  simp [step, updS]

theorem claim_C9_witness :
    (step W2 (Event.dataAvail 0 0)).sessions = W2.sessions :=
  (claim_C9 W2 0 reachable_W2).2.2

theorem toggle_idle_urls (X : Sys) (ok : Bool)
    (hidle : X.recorderState = RecorderState.idle) :
    (step X (Event.toggle true ok)).urls = X.urls := by
  cases ok <;> simp [step, handleRecord, hidle]

theorem toggle_idle_findS (X : Sys) (ok : Bool) (sid : Nat) (t : Session)
    (hidle : X.recorderState = RecorderState.idle)
    (hfind : findS X.sessions sid = some t) :
    findS (step X (Event.toggle true ok)).sessions sid = some t := by
  cases ok
  · simpa [step, handleRecord, hidle] using hfind
  · simp only [step, handleRecord, hidle]
    simp only [Bool.true_eq_false, if_false, reduceCtorEq]
    exact findS_append_left _ hfind

/-- Claim C1: starting from any state in which session `sid` is recording
(with a nonempty chunk buffer, the component in `recording` state, the ref
on `sid`, and the timeout handle `h` armed for `sid`), a manual stop and
the timeout firing may arrive in either order; in both orders the session's
`onstop` handler runs exactly once (its stop count goes from 0 to 1) and
exactly one resource is minted from the buffered chunks (the url list
grows by exactly one entry). -/
theorem claim_C1 (sys : Sys) (sid h : Nat) (s : Session) (ok : Bool)
    (hfind : findS sys.sessions sid = some s)
    (hrs : s.rstate = MRState.recording)
    (hsc : s.stopCount = 0)
    (hcs : s.chunks ≠ [])
    (hrec : sys.recorderState = RecorderState.recording)
    (href : sys.recorderRef = some sid)
    (harm : armedLookup sys h = some (h, sid)) :
    ((findS
        (step (step sys (Event.toggle true ok))
          (Event.fireTimeout h)).sessions sid).map Session.stopCount =
      some 1 ∧
      (step (step sys (Event.toggle true ok))
          (Event.fireTimeout h)).urls.length = sys.urls.length + 1) ∧
    ((findS
        (step (step sys (Event.fireTimeout h))
          (Event.toggle true ok)).sessions sid).map Session.stopCount =
      some 1 ∧
      (step (step sys (Event.fireTimeout h))
          (Event.toggle true ok)).urls.length = sys.urls.length + 1) := by
  have hsid : s.sid = sid := (findS_some hfind).1
  have hfindStop : findS (updS sys.sessions sid stopS) sid =
      some (stopS s) := by
    rw [findS_updS _ _ _ _ stopS_sid, hfind]
    simp [hsid]
  have hrsStop : (stopS s).rstate ≠ MRState.recording := by
    simp [stopS]
  have hsc1 : (stopS s).stopCount = 1 := by
    simp [stopS, hsc]
  constructor
  · -- manual stop first, then the timeout fires on the stopped recorder
    have e1eq : step sys (Event.toggle true ok) =
        { sys with
            sessions := updS sys.sessions sid stopS
            downloadUrl := some sys.nextUrl
            urls := (sys.nextUrl, s.chunks) :: sys.urls
            nextUrl := sys.nextUrl + 1
            message := Msg.ready
            recorderState := RecorderState.idle } := by
      rw [toggle_stop_eq sys sid ok hrec href,
        stopRecorder_eq sys sid s hfind hrs, onStop_ne _ _ hcs]
    have harm1 : armedLookup (step sys (Event.toggle true ok)) h =
        some (h, sid) := by
      rw [e1eq]
      exact harm
    have e2eq : step (step sys (Event.toggle true ok))
        (Event.fireTimeout h) =
        { sys with
            sessions := updS sys.sessions sid stopS
            downloadUrl := some sys.nextUrl
            urls := (sys.nextUrl, s.chunks) :: sys.urls
            nextUrl := sys.nextUrl + 1
            message := Msg.ready
            recorderState := RecorderState.idle
            armed := sys.armed.filter fun q => decide (q.1 ≠ h)
            pendingTimeout := none } := by
      rw [fireTimeout_eq _ h sid harm1]
      rw [stopRecorder_noop _ sid (stopS s) (by rw [e1eq]; exact hfindStop)
        hrsStop]
      rw [e1eq]
    constructor
    · rw [e2eq]
      show (findS (updS sys.sessions sid stopS) sid).map _ = _
      rw [hfindStop]
      simp [hsc1]
    · rw [e2eq]
      show ((sys.nextUrl, s.chunks) :: sys.urls).length = _
      simp
  · -- the timeout fires first, then the click lands on an idle state
    have f1eq : step sys (Event.fireTimeout h) =
        { sys with
            sessions := updS sys.sessions sid stopS
            armed := sys.armed.filter fun q => decide (q.1 ≠ h)
            downloadUrl := some sys.nextUrl
            urls := (sys.nextUrl, s.chunks) :: sys.urls
            nextUrl := sys.nextUrl + 1
            message := Msg.ready
            recorderState := RecorderState.idle
            pendingTimeout := none } := by
      rw [fireTimeout_eq sys h sid harm]
      rw [stopRecorder_eq _ sid s (by exact hfind) hrs, onStop_ne _ _ hcs]
    have hidle2 : (step sys (Event.fireTimeout h)).recorderState =
        RecorderState.idle := by
      rw [f1eq]
    have hfind2 : findS (step sys (Event.fireTimeout h)).sessions sid =
        some (stopS s) := by
      rw [f1eq]
      exact hfindStop
    constructor
    · rw [toggle_idle_findS _ ok sid (stopS s) hidle2 hfind2]
      simp [hsc1]
    · rw [toggle_idle_urls _ ok hidle2, f1eq]
      show ((sys.nextUrl, s.chunks) :: sys.urls).length = _
      simp

theorem claim_C1_witness :
    ((findS
        (step (step W2 (Event.toggle true true))
          (Event.fireTimeout 0)).sessions 0).map Session.stopCount =
      some 1 ∧
      (step (step W2 (Event.toggle true true))
          (Event.fireTimeout 0)).urls.length = W2.urls.length + 1) ∧
    ((findS
        (step (step W2 (Event.fireTimeout 0))
          (Event.toggle true true)).sessions 0).map Session.stopCount =
      some 1 ∧
      (step (step W2 (Event.fireTimeout 0))
          (Event.toggle true true)).urls.length = W2.urls.length + 1) :=
  claim_C1 W2 0 0
    { sid := 0, rstate := MRState.recording, chunks := [5], stopCount := 0 }
    true rfl rfl rfl (by simp) rfl rfl rfl

/-- Claim C5: a session that stops with a nonempty chunk buffer assembles
exactly the buffered chunks, in arrival order, into one resource, mints
exactly one url for it (consing one entry onto the url list), reports the
ready message and returns to idle; and the session start path revokes the
previous resource's url and clears `downloadUrl`. -/
theorem claim_C5 (sysA sysB : Sys) (u sid h : Nat) (s : Session)
    (hidleA : sysA.recorderState = RecorderState.idle)
    (hdlA : sysA.downloadUrl = some u)
    (hfindB : findS sysB.sessions sid = some s)
    (hrsB : s.rstate = MRState.recording)
    (hcsB : s.chunks ≠ [])
    (harmB : armedLookup sysB h = some (h, sid)) :
    (u ∈ (step sysA (Event.toggle true true)).revoked ∧
      (step sysA (Event.toggle true true)).downloadUrl = none) ∧
    ((step sysB (Event.fireTimeout h)).urls =
        (sysB.nextUrl, s.chunks) :: sysB.urls ∧
      (step sysB (Event.fireTimeout h)).downloadUrl = some sysB.nextUrl ∧
      (step sysB (Event.fireTimeout h)).message = Msg.ready ∧
      (step sysB (Event.fireTimeout h)).recorderState =
        RecorderState.idle) := by
  constructor
  · constructor
    · simp [step, handleRecord, hidleA, hdlA]
    · simp [step, handleRecord, hidleA]
  · have f1eq : step sysB (Event.fireTimeout h) =
        { sysB with
            sessions := updS sysB.sessions sid stopS
            armed := sysB.armed.filter fun q => decide (q.1 ≠ h)
            downloadUrl := some sysB.nextUrl
            urls := (sysB.nextUrl, s.chunks) :: sysB.urls
            nextUrl := sysB.nextUrl + 1
            message := Msg.ready
            recorderState := RecorderState.idle
            pendingTimeout := none } := by
      rw [fireTimeout_eq sysB h sid harmB,
        stopRecorder_eq _ sid s (by exact hfindB) hrsB, onStop_ne _ _ hcsB]
    rw [f1eq]
    exact ⟨rfl, rfl, rfl, rfl⟩

/-- The state after the 10-second timeout has finalized the clip of `W2`:
idle, with one minted resource. -/
def W3 : Sys := step W2 (Event.fireTimeout 0)

theorem claim_C5_witness :
    (0 ∈ (step W3 (Event.toggle true true)).revoked ∧
      (step W3 (Event.toggle true true)).downloadUrl = none) ∧
    ((step W2 (Event.fireTimeout 0)).urls = (W2.nextUrl, [5]) :: W2.urls ∧
      (step W2 (Event.fireTimeout 0)).downloadUrl = some W2.nextUrl ∧
      (step W2 (Event.fireTimeout 0)).message = Msg.ready ∧
      (step W2 (Event.fireTimeout 0)).recorderState =
        RecorderState.idle) :=
  claim_C5 W3 W2 0 0 0
    { sid := 0, rstate := MRState.recording, chunks := [5], stopCount := 0 }
    rfl rfl rfl rfl (by simp) rfl

/-- Claim C6: a session that stops with zero buffered chunks reports the
capture-failed message, returns the state to idle, leaves `downloadUrl`
unset, and mints no resource. -/
theorem claim_C6 (sys : Sys) (sid h : Nat) (s : Session)
    (hfind : findS sys.sessions sid = some s)
    (hrs : s.rstate = MRState.recording)
    (hcs : s.chunks = [])
    (hdl : sys.downloadUrl = none)
    (harm : armedLookup sys h = some (h, sid)) :
    (step sys (Event.fireTimeout h)).message = Msg.noData ∧
    (step sys (Event.fireTimeout h)).recorderState = RecorderState.idle ∧
    (step sys (Event.fireTimeout h)).downloadUrl = none ∧
    (step sys (Event.fireTimeout h)).urls = sys.urls := by
  have f1eq : step sys (Event.fireTimeout h) =
      { sys with
          sessions := updS sys.sessions sid stopS
          armed := sys.armed.filter fun q => decide (q.1 ≠ h)
          message := Msg.noData
          recorderState := RecorderState.idle
          pendingTimeout := none } := by
    rw [fireTimeout_eq sys h sid harm,
      stopRecorder_eq _ sid s (by exact hfind) hrs, hcs, onStop_nil]
  rw [f1eq]
  exact ⟨rfl, rfl, hdl, rfl⟩

theorem claim_C6_witness :
    (step W1 (Event.fireTimeout 0)).message = Msg.noData ∧
      (step W1 (Event.fireTimeout 0)).recorderState = RecorderState.idle ∧
      (step W1 (Event.fireTimeout 0)).downloadUrl = none ∧
      (step W1 (Event.fireTimeout 0)).urls = W1.urls :=
  claim_C6 W1 0 0
    { sid := 0, rstate := MRState.recording, chunks := [], stopCount := 0 }
    rfl rfl rfl rfl rfl

theorem find_filter_ne_none (a : List (Nat × Nat)) (h : Nat) :
    (a.filter fun q => decide (q.1 ≠ h)).find?
      (fun p => decide (p.1 = h)) = none := by
  rw [List.find?_eq_none]
  intro x hx
  simpa using (List.mem_filter.mp hx).2

/-- Claim C10 counterexample: the claim asserts that after a manual stop
the armed timeout "still fires later and invokes stop on the
already-stopped recorder" and that "the handle is cleared only inside the
timeout callback itself".  This is false when the stop buffered data: the
`onstop` handler changes `downloadUrl`, so React runs the
`useEffect([downloadUrl])` cleanup (lines 106-118), whose `clearTimeout`
disarms the still-armed handle.  Concretely, from `W2` (recording, one
chunk) a manual stop followed by that forced cleanup leaves the handle no
longer armed, the timeout event is a no-op, and `pendingTimeoutRef` keeps
the stale handle — it is never cleared by the timeout callback. -/
theorem claim_C10_counterexample :
    armedLookup
        (step (step W2 (Event.toggle true true))
          (Event.effectCleanup none)) 0 = none ∧
    (step (step W2 (Event.toggle true true))
        (Event.effectCleanup none)).pendingTimeout = some 0 ∧
    step
        (step (step W2 (Event.toggle true true))
          (Event.effectCleanup none)) (Event.fireTimeout 0) =
      step (step W2 (Event.toggle true true)) (Event.effectCleanup none) ∧
    (step
        (step (step W2 (Event.toggle true true))
          (Event.effectCleanup none)) (Event.fireTimeout 0)).pendingTimeout
      ≠ none := by
  refine ⟨rfl, rfl, rfl, ?_⟩
  decide

/-- Claim C10, amended: the manual-stop branch of `handleRecord` itself
modifies neither `pendingTimeoutRef` nor the armed timer, so the handle is
still armed immediately after the stop.  What happens next depends on the
stop's outcome.  If it buffered zero chunks, `downloadUrl` does not change,
no effect cleanup runs, and the timeout later fires: its `stop` call on the
already-stopped recorder is a no-op (the session's stop count does not
change again) and the handle is cleared inside the timeout callback.  If it
buffered data, `downloadUrl` changes (from unset to the minted url), which
makes React run the `useEffect([downloadUrl])` cleanup: that cleanup
disarms the timer via `clearTimeout`, the timeout callback never fires, and
`pendingTimeoutRef` is left holding the stale handle. -/
theorem claim_C10 (sys : Sys) (sid h : Nat) (s : Session) (ok : Bool)
    (hfind : findS sys.sessions sid = some s)
    (hrs : s.rstate = MRState.recording)
    (hrec : sys.recorderState = RecorderState.recording)
    (href : sys.recorderRef = some sid)
    (harm : armedLookup sys h = some (h, sid))
    (hpend0 : sys.pendingTimeout = some h)
    (hdl : sys.downloadUrl = none) :
    (step sys (Event.toggle true ok)).pendingTimeout =
      sys.pendingTimeout ∧
    (step sys (Event.toggle true ok)).armed = sys.armed ∧
    armedLookup (step sys (Event.toggle true ok)) h = some (h, sid) ∧
    (s.chunks = [] →
      (step sys (Event.toggle true ok)).downloadUrl = none ∧
      (findS
          (step (step sys (Event.toggle true ok))
            (Event.fireTimeout h)).sessions sid).map Session.stopCount =
        (findS (step sys (Event.toggle true ok)).sessions sid).map
          Session.stopCount ∧
      (step (step sys (Event.toggle true ok))
          (Event.fireTimeout h)).pendingTimeout = none) ∧
    (s.chunks ≠ [] →
      (step sys (Event.toggle true ok)).downloadUrl = some sys.nextUrl ∧
      armedLookup
          (step (step sys (Event.toggle true ok))
            (Event.effectCleanup none)) h = none ∧
      step
          (step (step sys (Event.toggle true ok))
            (Event.effectCleanup none)) (Event.fireTimeout h) =
        step (step sys (Event.toggle true ok)) (Event.effectCleanup none) ∧
      (step (step sys (Event.toggle true ok))
          (Event.effectCleanup none)).pendingTimeout =
        sys.pendingTimeout) := by
  have hsid : s.sid = sid := (findS_some hfind).1
  have hstep := toggle_stop_eq sys sid ok hrec href
  have hstop := stopRecorder_eq sys sid s hfind hrs
  have hpend : (step sys (Event.toggle true ok)).pendingTimeout =
      sys.pendingTimeout := by
    rw [hstep, hstop, onStop]
    split_ifs <;> rfl
  have harmed : (step sys (Event.toggle true ok)).armed = sys.armed := by
    rw [hstep, hstop, onStop]
    split_ifs <;> rfl
  have hsess : (step sys (Event.toggle true ok)).sessions =
      updS sys.sessions sid stopS := by
    rw [hstep, hstop, onStop]
    split_ifs <;> rfl
  have harm1 : armedLookup (step sys (Event.toggle true ok)) h =
      some (h, sid) := by
    simp only [armedLookup, harmed]
    simpa [armedLookup] using harm
  have hfindStop :
      findS (step sys (Event.toggle true ok)).sessions sid =
        some (stopS s) := by
    rw [hsess, findS_updS _ _ _ _ stopS_sid, hfind]
    simp [hsid]
  have hrsStop : (stopS s).rstate ≠ MRState.recording := by
    simp [stopS]
  refine ⟨hpend, harmed, harm1, ?_, ?_⟩
  · -- zero chunks: no resource, `downloadUrl` untouched, the timeout
    -- later fires as a no-op stop and clears the handle
    intro hcs0
    have e1nil : step sys (Event.toggle true ok) =
        { sys with
            sessions := updS sys.sessions sid stopS
            message := Msg.noData
            recorderState := RecorderState.idle } := by
      rw [hstep, hstop, hcs0, onStop_nil]
    have e2eq : step (step sys (Event.toggle true ok))
        (Event.fireTimeout h) =
        { step sys (Event.toggle true ok) with
            armed := (step sys (Event.toggle true ok)).armed.filter
              fun q => decide (q.1 ≠ h)
            pendingTimeout := none } := by
      rw [fireTimeout_eq _ h sid harm1]
      rw [stopRecorder_noop _ sid (stopS s) (by exact hfindStop) hrsStop]
    refine ⟨?_, ?_, ?_⟩
    · rw [e1nil]
      exact hdl
    · rw [e2eq]
    · rw [e2eq]
  · -- data buffered: `downloadUrl` changes, forcing the effect cleanup,
    -- which disarms the timer; the timeout callback never fires
    intro hcs1
    have e1eq : step sys (Event.toggle true ok) =
        { sys with
            sessions := updS sys.sessions sid stopS
            downloadUrl := some sys.nextUrl
            urls := (sys.nextUrl, s.chunks) :: sys.urls
            nextUrl := sys.nextUrl + 1
            message := Msg.ready
            recorderState := RecorderState.idle } := by
      rw [hstep, hstop, onStop_ne _ _ hcs1]
    have hEeq : step (step sys (Event.toggle true ok))
        (Event.effectCleanup none) =
        { step sys (Event.toggle true ok) with
            armed := (step sys (Event.toggle true ok)).armed.filter
              fun q => decide (q.1 ≠ h) } := by
      show effectCleanupRun _ none = _
      rw [effectCleanupRun]
      have hcleanStop :
          cleanupStop (step sys (Event.toggle true ok)) =
            step sys (Event.toggle true ok) := by
        have hrefT : (step sys (Event.toggle true ok)).recorderRef =
            some sid := by
          rw [e1eq]
          exact href
        simp only [cleanupStop, hrefT]
        exact stopRecorder_noop _ sid (stopS s) (by exact hfindStop)
          hrsStop
      have hpendT : (step sys (Event.toggle true ok)).pendingTimeout =
          some h := by
        rw [hpend, hpend0]
      rw [hcleanStop]
      simp only [cleanupTimer, hpendT, cleanupRevoke]
    have harmE : armedLookup (step (step sys (Event.toggle true ok))
        (Event.effectCleanup none)) h = none := by
      rw [hEeq]
      show ((step sys (Event.toggle true ok)).armed.filter
        fun q => decide (q.1 ≠ h)).find? (fun p => decide (p.1 = h)) = none
      exact find_filter_ne_none _ h
    refine ⟨?_, harmE, ?_, ?_⟩
    · rw [e1eq]
    · exact fireTimeout_unarmed _ h harmE
    · rw [hEeq, hpend]

theorem claim_C10_witness :
    (step W2 (Event.toggle true true)).pendingTimeout =
      W2.pendingTimeout ∧
    (step W2 (Event.toggle true true)).armed = W2.armed ∧
    armedLookup (step W2 (Event.toggle true true)) 0 = some (0, 0) ∧
    ((step W2 (Event.toggle true true)).downloadUrl = some W2.nextUrl ∧
      armedLookup
          (step (step W2 (Event.toggle true true))
            (Event.effectCleanup none)) 0 = none ∧
      step
          (step (step W2 (Event.toggle true true))
            (Event.effectCleanup none)) (Event.fireTimeout 0) =
        step (step W2 (Event.toggle true true)) (Event.effectCleanup none) ∧
      (step (step W2 (Event.toggle true true))
          (Event.effectCleanup none)).pendingTimeout =
        W2.pendingTimeout) := by
  obtain ⟨h1, h2, h3, _, h5⟩ := claim_C10 W2 0 0
    { sid := 0, rstate := MRState.recording, chunks := [5], stopCount := 0 }
    true rfl rfl rfl rfl rfl rfl rfl
  exact ⟨h1, h2, h3, h5 (by simp)⟩

theorem claim_C8_witness :
    (0 : ℚ) ≤ 15000 ∧
      ((∃ rest,
        drawSkyline CANVAS_WIDTH CANVAS_HEIGHT skylineCE 15000 =
          Op.save ::
            Op.translate (-(skylineOffset CANVAS_WIDTH 15000)) 0 :: rest) ∧
      skylineOffset CANVAS_WIDTH 15000 =
        jsMod (15000 * 0.02) (CANVAS_WIDTH * 0.35) ∧
      0 ≤ skylineOffset CANVAS_WIDTH 15000 ∧
      skylineOffset CANVAS_WIDTH 15000 < CANVAS_WIDTH * 0.35) :=
  ⟨by norm_num, claim_C8 skylineCE 15000 (by norm_num)⟩

end NightWalk
